import Mathlib

/-!
Verification of the hyperwiz HTTP client library.

Shallow embedding of the library's core components, translated from the
TypeScript sources:

* `src/utils/createClient.ts` — per-origin circuit breaker, retry handler,
  backoff computation;
* `src/utils/cache.ts` — cache key generation and the in-memory LRU storage;
* `src/core/HttpClient.ts` (and its content-type-detecting variant) — the
  request pipeline with its discriminated `ApiResponse` outcome;
* `src/core/TokenManager.ts` — encrypted token store reads;
* `src/middleware/AuthMiddleware.ts` — the `withAuth` refresh-and-retry
  state machine.

JavaScript `Map` objects are modelled as association lists in insertion
order (which is exactly the iteration order of a JS `Map`); machine time
(`Date.now()`) is an explicit `Int` parameter; external collaborators
(`fetch`, `crypto.subtle`, `JSON.parse` success, `new URL` validity) are
modelled as explicit oracle parameters of the environment.
-/

namespace Hyperwiz

/-! ## Circuit breaker (`src/utils/createClient.ts`, lines 22-113)

```ts
interface CircuitBreakerState {
  failures: number;
  lastFailureTime: number;
  state: 'CLOSED' | 'OPEN' | 'HALF_OPEN';
}
```
A breaker that is not present in the `circuitBreakers` map is modelled as
`none`. -/

inductive BreakerPhase where
  | closed
  | opened
  | halfOpen
  deriving DecidableEq, Repr

structure CircuitBreakerState where
  failures : Nat
  lastFailureTime : Int
  phase : BreakerPhase
  deriving DecidableEq, Repr

/-- The hard-coded cool-down window `const timeout = 30000` in
`shouldAllowRequest`. -/
def breakerTimeout : Int := 30000

/-- TS source:
```ts
function shouldAllowRequest(circuitBreakerKey: string): boolean {
  const breaker = circuitBreakers.get(circuitBreakerKey);
  if (!breaker) return true;
  const now = Date.now();
  const timeout = 30000;
  switch (breaker.state) {
    case 'CLOSED': return true;
    case 'OPEN':
      if (now - breaker.lastFailureTime > timeout) {
        breaker.state = 'HALF_OPEN';
        return true;
      }
      return false;
    case 'HALF_OPEN': return true;
    default: return true;
  }
}
```
Returns the boolean result together with the (possibly mutated) breaker. -/
def shouldAllowRequest (now : Int) :
    Option CircuitBreakerState → Bool × Option CircuitBreakerState
  | none => (true, none)
  | some b =>
    match b.phase with
    | .closed => (true, some b)
    | .opened =>
      if now - b.lastFailureTime > breakerTimeout then
        (true, some { b with phase := .halfOpen })
      else
        (false, some b)
    | .halfOpen => (true, some b)

/-- TS source:
```ts
function recordSuccess(circuitBreakerKey: string): void {
  const breaker = circuitBreakers.get(circuitBreakerKey);
  if (breaker) {
    breaker.failures = 0;
    breaker.state = 'CLOSED';
  }
}
```
-/
def recordSuccess : Option CircuitBreakerState → Option CircuitBreakerState
  | none => none
  | some b => some { b with failures := 0, phase := .closed }

/-- TS source:
```ts
function recordFailure(circuitBreakerKey: string): void {
  let breaker = circuitBreakers.get(circuitBreakerKey);
  if (!breaker) {
    breaker = { failures: 0, lastFailureTime: 0, state: 'CLOSED' };
    circuitBreakers.set(circuitBreakerKey, breaker);
  }
  breaker.failures++;
  breaker.lastFailureTime = Date.now();
  if (breaker.failures >= 10) {
    breaker.state = 'OPEN';
  }
}
```
-/
def recordFailure (now : Int) :
    Option CircuitBreakerState → Option CircuitBreakerState
  | ob =>
    let b := ob.getD ⟨0, 0, .closed⟩
    let b1 : CircuitBreakerState :=
      { b with failures := b.failures + 1, lastFailureTime := now }
    some (if b1.failures ≥ 10 then { b1 with phase := .opened } else b1)

/-- One externally triggered breaker operation (for the reachability
invariant): a `shouldAllowRequest` probe at time `now`, a `recordSuccess`,
or a `recordFailure` at time `now`. -/
inductive BreakerOp where
  | allow (now : Int)
  | success
  | failure (now : Int)
  deriving Repr

def applyBreakerOp (op : BreakerOp) (s : Option CircuitBreakerState) :
    Option CircuitBreakerState :=
  match op with
  | .allow now => (shouldAllowRequest now s).2
  | .success => recordSuccess s
  | .failure now => recordFailure now s

/-- Breaker state after running a sequence of operations starting from an
absent breaker entry (breakers are created lazily on first failure). -/
def runBreakerOps (ops : List BreakerOp) : Option CircuitBreakerState :=
  ops.foldl (fun s op => applyBreakerOp op s) none

/-! ## In-memory LRU cache storage (`src/utils/cache.ts`, lines 105-204)

The backing JS `Map<string, CachedResponse>` is an association list in
insertion order; `cache.delete` + `cache.set` moves an entry to the end,
and `cache.keys().next().value` is the head of the list. -/

/-- A cached response.  `hasData` is the JS truthiness of `cached.data` and
`tsIsNumber` is `typeof cached.timestamp === 'number'` — the two checks the
storage performs on read; `payload` identifies the stored response data. -/
structure CachedResponse where
  hasData : Bool
  tsIsNumber : Bool
  timestamp : Int
  payload : Nat
  deriving DecidableEq, Repr

/-- The validation performed by `MemoryCacheStorage.get`:
`!cached.data || typeof cached.timestamp !== 'number'` marks the entry
invalid. -/
def isValidEntry (c : CachedResponse) : Bool :=
  c.hasData && c.tsIsNumber

/-- The entries of a `MemoryCacheStorage`, in `Map` insertion order
(head = oldest = least recently used, last = most recently used). -/
abbrev CacheMap := List (String × CachedResponse)

def cacheLookup (k : String) (c : CacheMap) : Option CachedResponse :=
  (c.find? (fun e => e.1 = k)).map Prod.snd

def cacheErase (k : String) (c : CacheMap) : CacheMap :=
  c.filter (fun e => e.1 ≠ k)

def cacheContains (k : String) (c : CacheMap) : Bool :=
  c.any (fun e => e.1 = k)

/-- JS `Array.from(this.cache.keys())[keys.length - 1]` — the most recently
used key. -/
def cacheLastKey (c : CacheMap) : Option String :=
  (c.map Prod.fst).getLast?

/-- TS source:
```ts
async get(key: string): Promise<CachedResponse | null> {
  const cached = this.cache.get(key);
  if (!cached) { this.missCount++; return null; }
  if (!cached.data || typeof cached.timestamp !== 'number') {
    this.cache.delete(key); this.missCount++; return null;
  }
  if (this.cache.size > 1) {
    const keys = Array.from(this.cache.keys());
    const lastKey = keys[keys.length - 1];
    if (key !== lastKey) { this.cache.delete(key); this.cache.set(key, cached); }
  }
  this.hitCount++;
  return cached;
}
```
Returns the looked-up value together with the updated entry list. -/
def memoryGet (c : CacheMap) (k : String) : Option CachedResponse × CacheMap :=
  match cacheLookup k c with
  | none => (none, c)
  | some v =>
    if ¬ isValidEntry v then
      (none, cacheErase k c)
    else if c.length > 1 ∧ cacheLastKey c ≠ some k then
      (some v, cacheErase k c ++ [(k, v)])
    else
      (some v, c)

/-- The `while (this.cache.size >= this.maxSize)` eviction loop of
`MemoryCacheStorage.set`: repeatedly delete the first (oldest) key; the
`firstKey`-undefined safety break corresponds to the empty-list case. -/
def evictOldest (maxSize : Nat) : CacheMap → CacheMap
  | [] => []
  | e :: rest =>
    if (e :: rest).length ≥ maxSize then evictOldest maxSize rest
    else e :: rest

/-- TS source:
```ts
async set(key: string, value: CachedResponse): Promise<void> {
  if (this.cache.has(key)) { this.cache.delete(key); }
  while (this.cache.size >= this.maxSize) {
    const firstKey = this.cache.keys().next().value;
    if (firstKey) { this.cache.delete(firstKey); } else { break; }
  }
  this.cache.set(key, value);
}
```
-/
def memorySet (maxSize : Nat) (c : CacheMap) (k : String) (v : CachedResponse) :
    CacheMap :=
  let c1 := if cacheContains k c then cacheErase k c else c
  evictOldest maxSize c1 ++ [(k, v)]

def memoryDelete (c : CacheMap) (k : String) : CacheMap :=
  cacheErase k c

def memoryClear (_c : CacheMap) : CacheMap := []

/-- One operation on a `MemoryCacheStorage` (for the size invariant). -/
inductive CacheOp where
  | get (k : String)
  | set (k : String) (v : CachedResponse)
  | del (k : String)
  | clear
  deriving Repr

def applyCacheOp (maxSize : Nat) (c : CacheMap) : CacheOp → CacheMap
  | .get k => (memoryGet c k).2
  | .set k v => memorySet maxSize c k v
  | .del k => memoryDelete c k
  | .clear => memoryClear c

/-- Cache contents after a sequence of operations on a fresh
`new MemoryCacheStorage(maxSize)` (which starts with an empty map). -/
def runCacheOps (maxSize : Nat) (ops : List CacheOp) : CacheMap :=
  ops.foldl (applyCacheOp maxSize) []

/-! ## JS string primitives

The JS string methods the sources use, modelled by structural recursion on
the underlying character lists (Lean's built-in `String` iterators do not
reduce inside the kernel, so these stand in for `startsWith`, `includes`,
`split`, `trim`, `toUpperCase`, `toLowerCase` and `localeCompare`). -/

def jsStartsWithL : List Char → List Char → Bool
  | _, [] => true
  | [], _ :: _ => false
  | a :: s, b :: p => a = b && jsStartsWithL s p

/-- JS `String.prototype.startsWith`. -/
def jsStartsWith (s pre : String) : Bool :=
  jsStartsWithL s.data pre.data

def jsIncludesL : List Char → List Char → Bool
  | [], pat => jsStartsWithL [] pat
  | a :: rest, pat => jsStartsWithL (a :: rest) pat || jsIncludesL rest pat

/-- JS `String.prototype.includes`: `pat` occurs in `s` somewhere. -/
def jsIncludes (s pat : String) : Bool :=
  jsIncludesL s.data pat.data

def jsSplitCharAux (c : Char) : List Char → List Char → List String
  | [], acc => [String.mk acc.reverse]
  | a :: rest, acc =>
    if a = c then String.mk acc.reverse :: jsSplitCharAux c rest []
    else jsSplitCharAux c rest (a :: acc)

/-- JS `String.prototype.split` with a single-character separator (the
only separators the sources split on are `?`, `&` and `=`). -/
def jsSplitChar (s : String) (c : Char) : List String :=
  jsSplitCharAux c s.data []

/-- JS `String.prototype.trim`. -/
def jsTrim (s : String) : String :=
  String.mk
    (((s.data.dropWhile Char.isWhitespace).reverse.dropWhile
        Char.isWhitespace).reverse)

/-- JS `String.prototype.toUpperCase` (ASCII case map). -/
def jsToUpper (s : String) : String :=
  String.mk (s.data.map Char.toUpper)

/-- JS `String.prototype.toLowerCase` (ASCII case map). -/
def jsToLower (s : String) : String :=
  String.mk (s.data.map Char.toLower)

/-- Code-point lexicographic comparison of character lists; the model of
the `a.localeCompare(b)` comparator (`true` = `a.localeCompare(b) <= 0`). -/
def lexLE : List Char → List Char → Bool
  | [], _ => true
  | _ :: _, [] => false
  | a :: s, b :: t => if a = b then lexLE s t else decide (a < b)

def localeCompareLE (a b : String) : Bool :=
  lexLE a.data b.data

/-! ## Cache key generation (`src/utils/cache.ts`, lines 32-103) -/

/-- Query-string parsing as performed by `new URLSearchParams(queryString)`:
split on `&`, skip empty pieces, split each piece at its first `=` (key
gets an empty value when no `=` is present).  Percent-decoding is the
identity in this model (keys and values are taken verbatim). -/
def parseQuery (qs : String) : List (String × String) :=
  (jsSplitChar qs '&').filterMap fun piece =>
    if piece = "" then none
    else
      match jsSplitChar piece '=' with
      | [] => none
      | k :: rest => some (k, String.intercalate "=" rest)

/-- The comparator `([a], [b]) => a.localeCompare(b)` of the generator's
`.sort`, modelled as code-point order on the parameter keys. -/
def keyLE (p q : String × String) : Prop :=
  localeCompareLE p.1 q.1 = true

instance : DecidableRel keyLE := fun p q =>
  inferInstanceAs (Decidable (localeCompareLE p.1 q.1 = true))

/-- JS `Array.prototype.sort` with the key comparator.  JS sort is stable, and
a stable sort under a total preorder is unique, so insertion sort is an
exact model. -/
def sortParams (ps : List (String × String)) : List (String × String) :=
  ps.insertionSort keyLE

/-- The rendering step `.map(([k, v]) => k + '=' + v).join('&')`. -/
def renderParams (ps : List (String × String)) : String :=
  String.intercalate "&" (ps.map fun p => p.1 ++ "=" ++ p.2)

/--
The `generate` closure of `createCacheKeyGenerator(includeQueryParams)`.

`urlParse` models the `new URL(url)` constructor used on absolute URLs: it
yields `(urlObj.pathname, query string without the leading ?)`, or `none`
when the constructor throws (the `catch` branch).  `body` is the
`JSON.stringify` serialization of a truthy request body (`none` = no body).

```ts
generate(method, url, body?) {
  let key;
  if (includeQueryParams) {
    try {
      if (url.startsWith('http')) {
        const urlObj = new URL(url);
        const params = Array.from(urlObj.searchParams.entries())
          .sort(([a], [b]) => a.localeCompare(b))
          .map(([k, v]) => ``${k}=${v}``).join('&');
        key = ``${method.toUpperCase()}:${urlObj.pathname}${params ? `?${params}` : ''}``;
      } else {
        const [pathname, queryString] = url.split('?');
        if (queryString) { ...sorted... key = ``${M}:${pathname}?${sortedParams}``; }
        else { key = ``${M}:${pathname}``; }
      }
    } catch { key = ``${M}:${url}``; }
  } else { ...strip query... }
  if (body && method.toUpperCase() !== 'GET') {
    try { key += ``:${JSON.stringify(body)}``; } catch { key += ``:${String(body)}``; }
  }
  return key;
}
```
-/
def generateKey (includeQueryParams : Bool)
    (urlParse : String → Option (String × String))
    (method url : String) (body : Option String) : String :=
  let m := jsToUpper method
  let key :=
    if includeQueryParams then
      if jsStartsWith url "http" then
        match urlParse url with
        | some (pathname, query) =>
          let params := renderParams (sortParams (parseQuery query))
          m ++ ":" ++ pathname ++ (if params ≠ "" then "?" ++ params else "")
        | none => m ++ ":" ++ url
      else
        let parts := jsSplitChar url '?'
        let pathname := parts.headD ""
        match parts.get? 1 with
        | none => m ++ ":" ++ pathname
        | some "" => m ++ ":" ++ pathname
        | some qs =>
          m ++ ":" ++ pathname ++ "?" ++ renderParams (sortParams (parseQuery qs))
    else
      if jsStartsWith url "http" then
        match urlParse url with
        | some (pathname, _query) => m ++ ":" ++ pathname
        | none =>
          let p := (jsSplitChar url '?').headD ""
          m ++ ":" ++ (if p = "" then url else p)
      else
        let p := (jsSplitChar url '?').headD ""
        m ++ ":" ++ (if p = "" then url else p)
  match body with
  | some s => if m ≠ "GET" then key ++ ":" ++ s else key
  | none => key

/-! ## Retry handler (`src/utils/createClient.ts`, lines 149-237) -/

/-- The HTTP verbs of `type HttpMethod` in `src/core/HttpClient.ts`. -/
inductive HttpMethod where
  | GET
  | POST
  | PUT
  | PATCH
  | DELETE
  deriving DecidableEq, Repr

/-- The `RequestConfig` shape as far as the retry and pipeline logic inspects it:
a method, optional headers and an optional body (`undefined` = `none`).
Headers and bodies are opaque values of types `η` and `β`. -/
structure RequestConfig (η β : Type) where
  method : HttpMethod
  headers : Option η
  body : Option β
  deriving DecidableEq, Repr

/-- A request as actually issued on the wire: the verb methods
`get/post/put/patch/delete` of `HttpClient` forward exactly these four
components to `request`. -/
structure IssuedRequest (η β : Type) where
  method : HttpMethod
  url : String
  headers : Option η
  body : Option β
  deriving DecidableEq, Repr

/-- TS source:
```ts
function addRetryAttempt(url: string, attempt: number): string {
  const separator = url.includes('?') ? '&' : '?';
  return ``${url}${separator}__retry_attempt=${attempt}``;
}
```
-/
def addRetryAttempt (url : String) (attempt : Nat) : String :=
  let separator := if jsIncludes url "?" then "&" else "?"
  url ++ separator ++ "__retry_attempt=" ++ toString attempt

/--
The re-issue dispatch of `handleRetry` (lines 196-222): which request the
retry actually puts on the wire, given the original request's config.

```ts
if (originalConfig) {
  switch (originalConfig.method) {
    case 'GET':    result = await client.get(retryUrl, originalConfig.headers); break;
    case 'POST':   result = await client.post(retryUrl, originalConfig.body, originalConfig.headers); break;
    case 'PUT':    result = await client.put(retryUrl, originalConfig.body, originalConfig.headers); break;
    case 'PATCH':  result = await client.patch(retryUrl, originalConfig.body, originalConfig.headers); break;
    case 'DELETE': result = await client.delete(retryUrl, originalConfig.headers); break;
    default:       result = await client.get(retryUrl);
  }
} else {
  result = await client.get(retryUrl);
}
```
`client.get`/`client.delete` take no body parameter, so those arms issue a
request with `body = none`. -/
def retryReissue {η β : Type} (retryUrl : String) :
    Option (RequestConfig η β) → IssuedRequest η β
  | some cfg =>
    match cfg.method with
    | .GET => ⟨.GET, retryUrl, cfg.headers, none⟩
    | .POST => ⟨.POST, retryUrl, cfg.headers, cfg.body⟩
    | .PUT => ⟨.PUT, retryUrl, cfg.headers, cfg.body⟩
    | .PATCH => ⟨.PATCH, retryUrl, cfg.headers, cfg.body⟩
    | .DELETE => ⟨.DELETE, retryUrl, cfg.headers, none⟩
  | none => ⟨.GET, retryUrl, none, none⟩

/-! ## Backoff computation (`src/utils/createClient.ts`, lines 149-156)

IEEE-754 doubles are modelled as exact rationals; `Math.random()` is the
explicit parameter `rand`, constrained to `[0, 1)` where it matters. -/

structure RetryConfig where
  maxRetries : Nat
  retryDelay : ℚ
  maxDelay : ℚ
  backoffMultiplier : ℚ
  retryOnStatus : List Nat
  retryOnNetworkError : Bool

/-- The `DEFAULT_RETRY_CONFIG` constant of `createClient.ts`. -/
def DEFAULT_RETRY_CONFIG : RetryConfig :=
  { maxRetries := 3
    retryDelay := 1000
    maxDelay := 10000
    backoffMultiplier := 2
    retryOnStatus := [408, 429, 500, 502, 503, 504]
    retryOnNetworkError := true }

/-- TS source:
```ts
function calculateDelay(attempt: number, retryConfig: RetryConfig): number {
  const baseDelay = retryConfig.retryDelay!;
  const multiplier = retryConfig.backoffMultiplier!;
  const maxDelay = retryConfig.maxDelay!;
  const delay = baseDelay * Math.pow(multiplier, attempt);
  const jitter = Math.random() * 0.1 * delay;
  return Math.min(delay + jitter, maxDelay);
}
```
-/
def calculateDelay (attempt : Nat) (rc : RetryConfig) (rand : ℚ) : ℚ :=
  let baseDelay := rc.retryDelay
  let multiplier := rc.backoffMultiplier
  let maxDelay := rc.maxDelay
  let delay := baseDelay * multiplier ^ attempt
  let jitter := rand * (1 / 10) * delay
  min (delay + jitter) maxDelay

/-! ## Request pipeline (`src/core/HttpClient.ts`)

The transport (`fetch`), the `JSON.parse` builtin and `new URL` validation
are external collaborators, passed in through `HttpEnv`.  Interceptors are
arbitrary caller functions that may themselves throw; a throwing
interceptor is caught and the chain continues with the previous value. -/

/-- Outcome of `JSON.parse(text)`: the parse throws, yields a JSON string
value (so that `typeof data === 'string'` is true for the parsed result),
or yields some non-string JSON value. -/
inductive JsonParseOutcome where
  | fails
  | strVal (v : String)
  | otherVal
  deriving DecidableEq, Repr

/-- The value produced by `parseResponse`: `null`, the raw response text,
a JSON-parsed string value, or a JSON-parsed non-string value (tagged with
its source text). -/
inductive ParsedData where
  | nullData
  | text (s : String)
  | jsonStr (v : String)
  | jsonOther (src : String)
  deriving DecidableEq, Repr

/-- TS source:
```ts
function isJsonResponse(contentType: string | null): boolean {
  if (!contentType) return false;
  const normalizedType = contentType.toLowerCase().trim();
  return normalizedType === 'application/json' ||
         normalizedType.startsWith('application/json;');
}
```
-/
def isJsonResponse : Option String → Bool
  | none => false
  | some ct =>
    let normalizedType := jsTrim (jsToLower ct)
    normalizedType = "application/json" ||
      jsStartsWith normalizedType "application/json;"

/-- TS source:
```ts
async function parseResponse(response: Response): Promise<unknown> {
  const contentType = response.headers.get("Content-Type");
  try {
    if (isJsonResponse(contentType)) {
      const text = await response.text();
      return text ? JSON.parse(text) : null;
    } else {
      return await response.text();
    }
  } catch (error) { return null; }
}
```
-/
def parseResponse (jsonParse : String → JsonParseOutcome)
    (contentType : Option String) (bodyText : String) : ParsedData :=
  if isJsonResponse contentType then
    if bodyText = "" then .nullData
    else
      match jsonParse bodyText with
      | .fails => .nullData
      | .strVal v => .jsonStr v
      | .otherVal => .jsonOther bodyText
  else
    .text bodyText

/-- What `fetch(fullUrl, ...)` does for this request: resolve with a
response (status, `Content-Type` response header, body text) or reject
(`threw (some m)` = an `Error` with message `m`, `threw none` = a
non-`Error` value). -/
inductive TransportOutcome where
  | response (status : Nat) (contentType : Option String) (bodyText : String)
  | threw (msg : Option String)
  deriving DecidableEq, Repr

/-- The discriminated result type of the pipeline:
```ts
type ApiResponse<T> =
  | { success: true; data: T }
  | { success: false; status?: number; error: string };
```
-/
inductive ApiResponse (T : Type) where
  | success (data : T)
  | failure (status : Option Nat) (error : String)
  deriving DecidableEq, Repr

/-- An interceptor is an arbitrary caller function; `.error ()` models the
interceptor throwing. -/
abbrev Interceptor (A : Type) := A → Except Unit A

/-- The shared shape of `runBeforeHandlers` / `runAfterHandlers` /
`runErrorHandlers`: fold the handler chain over the value, and on a
throwing handler continue with the previous value (the `catch` +
`console.error` arms). -/
def runHandlers {A : Type} (hs : List (Interceptor A)) (a : A) : A :=
  hs.foldl
    (fun acc h =>
      match h acc with
      | .ok v => v
      | .error _ => acc)
    a

/-- TS source:
```ts
function normalizeUrl(base: string, path: string): string {
  try {
    if (path.startsWith('http://') || path.startsWith('https://')) return path;
    const cleanBase = base.replace(/\/+$/, '');
    const cleanPath = path.replace(/^\/+/, '');
    const fullUrl = `${cleanBase}/${cleanPath}`;
    new URL(fullUrl); // This will throw if URL is invalid
    return fullUrl;
  } catch (error) {
    throw new Error(`Invalid URL: ${base}/${path}`);
  }
}
```
`urlValid` models the `new URL` constructor succeeding. -/
def normalizeUrl (urlValid : String → Bool) (base path : String) :
    Except String String :=
  if jsStartsWith path "http://" || jsStartsWith path "https://" then .ok path
  else
    let cleanBase := String.mk (base.data.reverse.dropWhile (· = '/')).reverse
    let cleanPath := String.mk (path.data.dropWhile (· = '/'))
    let fullUrl := cleanBase ++ "/" ++ cleanPath
    if urlValid fullUrl then .ok fullUrl
    else .error ("Invalid URL: " ++ base ++ "/" ++ path)

/-- The pipeline's environment: the external collaborators and the
registered interceptor chains of an `HttpClient` instance.  Error
interceptor values are modelled at their final `String(processedError)`
coercion. -/
structure HttpEnv (η β : Type) where
  urlValid : String → Bool
  jsonParse : String → JsonParseOutcome
  before : List (Interceptor (RequestConfig η β))
  after : List (Interceptor ParsedData)
  onError : List (Interceptor String)
  transport : RequestConfig η β → TransportOutcome

/--
The private `request<T>` method of `HttpClient` (`src/core/HttpClient.ts`,
lines 129-190).  Everything after URL normalization sits inside one
`try`/`catch` whose `catch` arm returns `{success:false, error}`, so the
only way `request` can reject is `normalizeUrl` throwing — modelled by the
`Except.error` case.

```ts
private async request<T>(url, config): Promise<ApiResponse<T>> {
  const fullUrl = normalizeUrl(this.baseUrl, url);
  try {
    const finalConfig = await this.runBeforeHandlers(config, fullUrl);
    const headers = { 'Content-Type': 'application/json', ...(finalConfig.headers || {}) };
    const response = await fetch(fullUrl, { method, headers, body, signal, credentials });
    const data = await parseResponse(response);
    if (!response.ok) {
      const error = typeof data === 'string' ? data : 'Request failed';
      const processedError = await this.runErrorHandlers(error, fullUrl, finalConfig);
      return { success: false, status: response.status, error: String(processedError) };
    }
    const processedData = await this.runAfterHandlers(response, data as T, fullUrl);
    return { success: true, data: processedData };
  } catch (err) {
    const error = err instanceof Error ? err.message : 'Network error';
    const processedError = await this.runErrorHandlers(error, fullUrl, config);
    return { success: false, error: String(processedError) };
  }
}
```
(`response.ok` is status 200-299; `JSON.stringify` of the outgoing body is
total in this model — when it throws in JS, the same `catch` produces the
no-status failure outcome.) -/
def request {η β : Type} (env : HttpEnv η β) (baseUrl path : String)
    (config : RequestConfig η β) : Except String (ApiResponse ParsedData) :=
  match normalizeUrl env.urlValid baseUrl path with
  | .error e => .error e
  | .ok _fullUrl =>
    let finalConfig := runHandlers env.before config
    match env.transport finalConfig with
    | .threw msg =>
      let error := msg.getD "Network error"
      .ok (.failure none (runHandlers env.onError error))
    | .response status contentType bodyText =>
      let data := parseResponse env.jsonParse contentType bodyText
      if 200 ≤ status ∧ status ≤ 299 then
        .ok (.success (runHandlers env.after data))
      else
        let error :=
          match data with
          | .text s => s
          | .jsonStr v => v
          | _ => "Request failed"
        .ok (.failure (some status) (runHandlers env.onError error))

/-- The five public verb wrappers (`get/post/put/patch/delete`), which
forward to `request` with the corresponding method; `get`/`delete` take no
body parameter. -/
def verbCall {η β : Type} (env : HttpEnv η β) (baseUrl path : String)
    (m : HttpMethod) (headers : Option η) (body : Option β) :
    Except String (ApiResponse ParsedData) :=
  match m with
  | .GET => request env baseUrl path ⟨.GET, headers, none⟩
  | .POST => request env baseUrl path ⟨.POST, headers, body⟩
  | .PUT => request env baseUrl path ⟨.PUT, headers, body⟩
  | .PATCH => request env baseUrl path ⟨.PATCH, headers, body⟩
  | .DELETE => request env baseUrl path ⟨.DELETE, headers, none⟩

/-- The `RequestConfig` each verb wrapper hands to `request`. -/
def verbConfig {η β : Type} (m : HttpMethod) (headers : Option η)
    (body : Option β) : RequestConfig η β :=
  match m with
  | .GET => ⟨.GET, headers, none⟩
  | .POST => ⟨.POST, headers, body⟩
  | .PUT => ⟨.PUT, headers, body⟩
  | .PATCH => ⟨.PATCH, headers, body⟩
  | .DELETE => ⟨.DELETE, headers, none⟩

/-! ## Content-type auto-detection

From the content-type-detecting `HttpClient` variant of the repository
(`detectContentType` / `shouldSetContentType` and the header assembly in
its `request` method). -/

/-- The runtime shape of a (non-null) request body as `detectContentType`
discriminates it.  `file`/`blob` carry their `.type` string (possibly
empty). -/
inductive JsBody where
  | str (s : String)
  | object
  | array
  | number
  | boolean
  | formData
  | urlSearchParams
  | file (mime : String)
  | blob (mime : String)
  | arrayBuffer
  | typedArray
  | date
  deriving DecidableEq, Repr

/-- The body value the detector hands to `fetch`: the original value,
its `JSON.stringify` serialization, or a `Date`'s `toISOString()`. -/
inductive ProcessedBody where
  | raw (b : JsBody)
  | jsonStringified (b : JsBody)
  | dateIso
  deriving DecidableEq, Repr

/-- TS source:
```ts
function detectContentType(body: unknown): { contentType; processedBody } {
  if (body === null || body === undefined)
    return { contentType: 'application/json', processedBody: null };
  if (typeof body === 'string') {
    try { JSON.parse(body); return { contentType: 'application/json', processedBody: body }; }
    catch {
      if (body.trim().startsWith('<') && body.includes('</'))
        return { contentType: 'text/html', processedBody: body };
      if (body.trim().startsWith('<?xml') || body.trim().startsWith('<'))
        return { contentType: 'application/xml', processedBody: body };
      return { contentType: 'text/plain', processedBody: body };
    }
  }
  if (body instanceof FormData) return { 'multipart/form-data', body };
  if (body instanceof URLSearchParams) return { 'application/x-www-form-urlencoded', body };
  if (body instanceof File) return { body.type || 'application/octet-stream', body };
  if (body instanceof Blob) return { body.type || 'application/octet-stream', body };
  if (body instanceof ArrayBuffer) return { 'application/octet-stream', body };
  if (body instanceof Uint8Array || ...) return { 'application/octet-stream', body };
  if (body instanceof Date) return { 'application/json', body.toISOString() };
  if (typeof body === 'object') return { 'application/json', JSON.stringify(body) };
  return { 'application/json', JSON.stringify(body) };
}
```
The `null`/`undefined` arm is not modelled separately because the caller
(`request`) only invokes the detector when `shouldSetContentType` has
already ruled out null bodies. -/
def detectContentType (jsonParse : String → JsonParseOutcome) :
    JsBody → String × ProcessedBody
  | .str s =>
    match jsonParse s with
    | .strVal _ => ("application/json", .raw (.str s))
    | .otherVal => ("application/json", .raw (.str s))
    | .fails =>
      if jsStartsWith (jsTrim s) "<" && jsIncludes s "</" then
        ("text/html", .raw (.str s))
      else if jsStartsWith (jsTrim s) "<?xml" || jsStartsWith (jsTrim s) "<" then
        ("application/xml", .raw (.str s))
      else
        ("text/plain", .raw (.str s))
  | .formData => ("multipart/form-data", .raw .formData)
  | .urlSearchParams => ("application/x-www-form-urlencoded", .raw .urlSearchParams)
  | .file mime =>
    (if mime = "" then "application/octet-stream" else mime, .raw (.file mime))
  | .blob mime =>
    (if mime = "" then "application/octet-stream" else mime, .raw (.blob mime))
  | .arrayBuffer => ("application/octet-stream", .raw .arrayBuffer)
  | .typedArray => ("application/octet-stream", .raw .typedArray)
  | .date => ("application/json", .dateIso)
  | .object => ("application/json", .jsonStringified .object)
  | .array => ("application/json", .jsonStringified .array)
  | .number => ("application/json", .jsonStringified .number)
  | .boolean => ("application/json", .jsonStringified .boolean)

/-- TS source:
```ts
function shouldSetContentType(method: string, body: unknown): boolean {
  return body !== null && body !== undefined && ['POST', 'PUT', 'PATCH'].includes(method);
}
```
-/
def shouldSetContentType (method : HttpMethod) (body : Option JsBody) : Bool :=
  body.isSome &&
    (method = HttpMethod.POST || method = HttpMethod.PUT ||
      method = HttpMethod.PATCH)

/-- The content-type/body assembly inside the detecting variant's
`request` method:
```ts
let processedBody = finalConfig.body;
let contentType: string | undefined;
if (shouldSetContentType(finalConfig.method, finalConfig.body)) {
  const { contentType: detectedType, processedBody: processed } = detectContentType(finalConfig.body);
  contentType = detectedType;
  processedBody = processed;
}
const headers = { ...(finalConfig.headers object) };
if (contentType && !headers['Content-Type']) headers['Content-Type'] = contentType;
```
`explicitCT` is the `Content-Type` entry of the caller-supplied headers, if
any.  Returns the `Content-Type` header that goes on the wire (if any) and
the body handed to `fetch`. -/
def pipelineBodyPrep (jsonParse : String → JsonParseOutcome)
    (method : HttpMethod) (explicitCT : Option String) (body : Option JsBody) :
    Option String × Option ProcessedBody :=
  match body with
  | none => (explicitCT, none)
  | some b =>
    if shouldSetContentType method (some b) then
      let d := detectContentType jsonParse b
      ((match explicitCT with
        | some c => some c
        | none => some d.1),
       some d.2)
    else
      (explicitCT, some (.raw b))

/-! ## Encrypted token store reads (`src/core/TokenManager.ts`) -/

/-- Environment for `getAccessToken`/`getRefreshToken`: the persisted
ciphertexts (`localStorage.getItem` returns `string | null`), the
module-level `globalSecretKey`, and the `decryptToken` collaborator
(`.error` = the decryption throwing). -/
structure TokenStoreEnv where
  storedAccess : Option String
  storedRefresh : Option String
  globalSecretKey : Option String
  decrypt : String → String → Except String String

/-- TS source:
```ts
export async function getAccessToken(): Promise<string | null> {
  try {
    const encryptedToken = localStorage.getItem('accessToken');
    if (!encryptedToken || !globalSecretKey) return null;
    return await decryptToken(encryptedToken, globalSecretKey);
  } catch (error) { return null; }
}
```
The empty string is falsy in JS, hence the explicit `= ""` checks. -/
def getAccessToken (env : TokenStoreEnv) : Option String :=
  match env.storedAccess with
  | none => none
  | some encryptedToken =>
    if encryptedToken = "" then none
    else
      match env.globalSecretKey with
      | none => none
      | some key =>
        if key = "" then none
        else
          match env.decrypt encryptedToken key with
          | .ok t => some t
          | .error _ => none

/-- The `getRefreshToken` twin of `getAccessToken`, reading the
`refreshToken` item. -/
def getRefreshToken (env : TokenStoreEnv) : Option String :=
  match env.storedRefresh with
  | none => none
  | some encryptedToken =>
    if encryptedToken = "" then none
    else
      match env.globalSecretKey with
      | none => none
      | some key =>
        if key = "" then none
        else
          match env.decrypt encryptedToken key with
          | .ok t => some t
          | .error _ => none

/-! ## Authentication middleware (`src/middleware/AuthMiddleware.ts`)

`withAuth` is the closure returned by `createAuthMiddleware(client,
secretKey)`.  Its collaborators are modelled as environment data:

* `accessToken`/`refreshToken`: the results of `getAccessToken()` /
  `getRefreshToken()` (`none` = `null`);
* `accessExpired`/`refreshExpired`: the results of
  `isAccessTokenExpired()` / `isRefreshTokenExpired()`;
* `refreshResults n`: what the `n`-th call (0-based) to
  `tryRefreshToken(client, refreshToken)` does — `tryRefreshToken` either
  returns `{accessToken, refreshToken}` (both strings: it falls back to
  the old refresh token itself) or throws;
* `requestResults n`: what the `n`-th invocation of the caller-supplied
  `requestFn(headers)` does — resolve with an `ApiResponse`, throw an
  `Error` whose message includes `'HTTP error! status: 403'`, or throw
  some other error.

`setTokens`/`localStorage` writes always succeed in this model (their
failure is an encryption-collaborator failure, which the surrounding
`try` turns into the same redirect-and-throw exits that a throwing
`tryRefreshToken` produces). -/

inductive RefreshOutcome where
  | ok (accessToken refreshToken : String)
  | threw
  deriving DecidableEq, Repr

inductive ReqOutcome (T : Type) where
  | ok (response : T)
  | threw403
  | threwOther (msg : String)
  deriving DecidableEq, Repr

structure AuthEnv (T : Type) where
  secretKey : Option String
  accessToken : Option String
  refreshToken : Option String
  accessExpired : Bool
  refreshExpired : Bool
  refreshResults : Nat → RefreshOutcome
  requestResults : Nat → ReqOutcome T

/-- The observable outcome of one `withAuth(requestFn)` call:
how many times `tryRefreshToken` was called, how many times `requestFn`
was invoked, whether `redirectToLogin` ran (it always calls `logout`,
which clears the stored tokens, and navigates to the login URL when one is
configured), and the settled result (`.error m` = the promise rejecting
with an `Error` whose message is `m`). -/
structure AuthTrace (T : Type) where
  refreshCalls : Nat
  requestCalls : Nat
  redirectedToLogin : Bool
  outcome : Except String T
  deriving Repr

/-- The shared refresh-then-request block of the two proactive-refresh
branches of `withAuth` (lines 61-107 and 118-164): call
`tryRefreshToken`; on a returned access token with a configured secret
key, store the rotated tokens and invoke `requestFn` once — all inside a
`try` whose `catch` redirects to login and throws
`"Token refresh failed"`.  Any `requestFn` rejection here (403 or not) is
swallowed by that same `catch`. -/
def proactiveRefreshFlow {T : Type} (env : AuthEnv T) : AuthTrace T :=
  match env.refreshResults 0 with
  | .threw => ⟨1, 0, true, .error "Token refresh failed"⟩
  | .ok _ _ =>
    match env.secretKey with
    | none => ⟨1, 0, true, .error "Token refresh failed"⟩
    | some _ =>
      match env.requestResults 0 with
      | .ok v => ⟨1, 1, false, .ok v⟩
      | .threw403 => ⟨1, 1, true, .error "Token refresh failed"⟩
      | .threwOther _ => ⟨1, 1, true, .error "Token refresh failed"⟩

/--
The body of `withAuth<T>(requestFn)` (`src/middleware/AuthMiddleware.ts`,
lines 35-240), branch for branch:

1. no access and no refresh token ⇒ redirect + throw
   `"No authentication tokens available"`;
2. no access token, refresh token present: expired refresh token ⇒
   redirect + throw; otherwise `proactiveRefreshFlow`;
3. access token present but expired: no valid refresh token ⇒ redirect +
   throw `"Session expired - both tokens are invalid"`; otherwise
   `proactiveRefreshFlow`;
4. normal path: attach `Authorization: Bearer <accessToken>` and call
   `requestFn`; a rejection whose message includes
   `'HTTP error! status: 403'` triggers the single refresh-and-retry
   cycle guarded by `refreshToken && secretKey &&
   !isRefreshTokenExpired()`; inside that cycle a second rejection of the
   retried `requestFn` (or a throwing/failed refresh) is caught by the
   `catch (refreshError)` arm, which redirects to login and throws
   `"Token refresh failed after 403 error"`; any non-403 rejection is
   re-thrown unchanged.
-/
def withAuthBody {T : Type} (env : AuthEnv T) : AuthTrace T :=
  match env.accessToken, env.refreshToken with
  | none, none => ⟨0, 0, true, .error "No authentication tokens available"⟩
  | none, some _ =>
    if env.refreshExpired then
      ⟨0, 0, true, .error "Refresh token expired"⟩
    else
      proactiveRefreshFlow env
  | some _, _ =>
    if env.accessExpired then
      match env.refreshToken with
      | none => ⟨0, 0, true, .error "Session expired - both tokens are invalid"⟩
      | some _ =>
        if env.refreshExpired then
          ⟨0, 0, true, .error "Session expired - both tokens are invalid"⟩
        else
          proactiveRefreshFlow env
    else
      match env.requestResults 0 with
      | .ok v => ⟨0, 1, false, .ok v⟩
      | .threwOther m => ⟨0, 1, false, .error m⟩
      | .threw403 =>
        match env.refreshToken, env.secretKey with
        | some _, some _ =>
          if env.refreshExpired then
            ⟨0, 1, true, .error "No valid refresh token available for retry"⟩
          else
            match env.refreshResults 0 with
            | .threw => ⟨1, 1, true, .error "Token refresh failed after 403 error"⟩
            | .ok _ _ =>
              match env.requestResults 1 with
              | .ok v => ⟨1, 2, false, .ok v⟩
              | .threw403 =>
                ⟨1, 2, true, .error "Token refresh failed after 403 error"⟩
              | .threwOther _ =>
                ⟨1, 2, true, .error "Token refresh failed after 403 error"⟩
        | _, _ =>
          ⟨0, 1, true, .error "No valid refresh token available for retry"⟩

/-- The full `withAuth` call: `if (secretKey) setGlobalSecretKey(secretKey)`
runs before any `try`, so a configured key below the 32-character floor
makes `withAuth` reject immediately (no redirect, tokens untouched);
otherwise the branch logic of `withAuthBody` runs. -/
def withAuth {T : Type} (env : AuthEnv T) : AuthTrace T :=
  match env.secretKey with
  | some k =>
    if k.length < 32 then
      ⟨0, 0, false,
        .error "Secret key must be at least 32 characters long for AES-256 encryption"⟩
    else withAuthBody env
  | none => withAuthBody env

/-! ## Theorems -/

/-- C8: for every retry attempt `a` and retry configuration, the computed
backoff delay equals
`min(baseDelay * multiplier^a + jitter, maxDelay)` with
`jitter = rand * 0.1 * (baseDelay * multiplier^a)` for the drawn random
value `rand ∈ [0, 1)`; in particular the delay never exceeds `maxDelay`. -/
theorem calculateDelay_spec (attempt : Nat) (rc : RetryConfig) (rand : ℚ)
    (_h0 : 0 ≤ rand) (_h1 : rand < 1) :
    calculateDelay attempt rc rand =
      min (rc.retryDelay * rc.backoffMultiplier ^ attempt +
            rand * (1 / 10) * (rc.retryDelay * rc.backoffMultiplier ^ attempt))
        rc.maxDelay ∧
    calculateDelay attempt rc rand ≤ rc.maxDelay := by
  refine ⟨rfl, ?_⟩
  unfold calculateDelay
  exact min_le_right _ _

theorem calculateDelay_spec_witness :
    (0 : ℚ) ≤ 1 / 2 ∧ (1 : ℚ) / 2 < 1 ∧
      calculateDelay 2 DEFAULT_RETRY_CONFIG (1 / 2) = 4200 ∧
      calculateDelay 2 DEFAULT_RETRY_CONFIG (1 / 2) ≤ DEFAULT_RETRY_CONFIG.maxDelay := by
  have h := calculateDelay_spec 2 DEFAULT_RETRY_CONFIG (1 / 2)
    (by norm_num) (by norm_num)
  refine ⟨by norm_num, by norm_num, ?_, h.2⟩
  rw [h.1]
  norm_num [DEFAULT_RETRY_CONFIG]

/-- C7: `getAccessToken()` and `getRefreshToken()` return `null` (and never
throw — they are total functions into `Option`) both when no token is
stored, when no secret key is set, and when decryption of the stored
ciphertext fails; an absent token and a corrupt one are indistinguishable
through these functions (both give `none`). -/
theorem getToken_null_on_absent_or_corrupt (env : TokenStoreEnv) :
    (env.storedAccess = none → getAccessToken env = none) ∧
    (env.storedRefresh = none → getRefreshToken env = none) ∧
    (env.globalSecretKey = none →
      getAccessToken env = none ∧ getRefreshToken env = none) ∧
    (∀ tok key e, env.storedAccess = some tok → env.globalSecretKey = some key →
      env.decrypt tok key = .error e → getAccessToken env = none) ∧
    (∀ tok key e, env.storedRefresh = some tok → env.globalSecretKey = some key →
      env.decrypt tok key = .error e → getRefreshToken env = none) := by
  refine ⟨?_, ?_, ?_, ?_, ?_⟩
  · intro h; simp [getAccessToken, h]
  · intro h; simp [getRefreshToken, h]
  · intro h
    constructor
    · unfold getAccessToken
      rcases env.storedAccess with _ | t
      · rfl
      · simp [h]
    · unfold getRefreshToken
      rcases env.storedRefresh with _ | t
      · rfl
      · simp [h]
  · intro tok key e hs hk hd
    unfold getAccessToken
    rw [hs, hk]
    by_cases ht : tok = ""
    · simp [ht]
    · by_cases hkey : key = ""
      · simp [ht, hkey]
      · simp [ht, hkey, hd]
  · intro tok key e hs hk hd
    unfold getRefreshToken
    rw [hs, hk]
    by_cases ht : tok = ""
    · simp [ht]
    · by_cases hkey : key = ""
      · simp [ht, hkey]
      · simp [ht, hkey, hd]

theorem getToken_null_witness :
    (let env : TokenStoreEnv :=
      ⟨some "cipher", none, some "secretsecretsecretsecretsecret12",
        fun _ _ => .error "Decryption failed"⟩
     getAccessToken env = none ∧ getRefreshToken env = none) := by
  intro env
  refine ⟨?_, ?_⟩
  · exact (getToken_null_on_absent_or_corrupt env).2.2.2.1 "cipher"
      "secretsecretsecretsecretsecret12" "Decryption failed" rfl rfl rfl
  · exact (getToken_null_on_absent_or_corrupt env).2.1 rfl

/-- Case analysis of the state component of `shouldAllowRequest`: the
breaker is left unchanged, except that an `OPEN` breaker past its
cool-down flips to `HALF_OPEN` (failure count untouched). -/
theorem shouldAllow_snd_cases (now : Int) (b0 : CircuitBreakerState) :
    (shouldAllowRequest now (some b0)).2 = some b0 ∨
      ((shouldAllowRequest now (some b0)).2 =
          some ⟨b0.failures, b0.lastFailureTime, .halfOpen⟩ ∧
        b0.phase = .opened) := by
  obtain ⟨f0, t0, ph0⟩ := b0
  cases ph0 with
  | closed => left; rfl
  | opened =>
    by_cases hc : now - t0 > breakerTimeout
    · right
      exact ⟨by simp [shouldAllowRequest, hc], rfl⟩
    · left
      simp [shouldAllowRequest, hc]
  | halfOpen => left; rfl

/-- Case analysis of `recordFailure`: either the result is `OPEN` with at
least 10 failures, or the phase is carried over unchanged (from the
existing breaker, or `CLOSED` for a freshly created one) with a failure
count below 10. -/
theorem recordFailure_cases (now : Int) (s : Option CircuitBreakerState)
    (b : CircuitBreakerState) (hb : recordFailure now s = some b) :
    (b.phase = .opened ∧ 10 ≤ b.failures) ∨
      (b.failures < 10 ∧ b.phase = (s.getD ⟨0, 0, .closed⟩).phase ∧
        b.failures = (s.getD ⟨0, 0, .closed⟩).failures + 1) := by
  simp only [recordFailure] at hb
  by_cases hc : (s.getD ⟨0, 0, .closed⟩).failures + 1 ≥ 10
  · left
    rw [if_pos hc] at hb
    cases hb
    exact ⟨rfl, hc⟩
  · right
    rw [if_neg hc] at hb
    cases hb
    refine ⟨?_, rfl, rfl⟩
    show (s.getD ⟨0, 0, .closed⟩).failures + 1 < 10
    omega

/-- Any breaker state reachable from an absent entry that is `OPEN` or
`HALF_OPEN` carries at least 10 recorded failures: the only way to leave
`CLOSED` is the `failures >= 10` branch of `recordFailure`, and the only
way to reset `failures` also resets the phase to `CLOSED`. -/
theorem breaker_failures_ge_ten (ops : List BreakerOp) :
    ∀ b, runBreakerOps ops = some b →
      (b.phase = .opened ∨ b.phase = .halfOpen) → 10 ≤ b.failures := by
  have step : ∀ (op : BreakerOp) (s : Option CircuitBreakerState),
      (∀ b, s = some b → (b.phase = .opened ∨ b.phase = .halfOpen) →
        10 ≤ b.failures) →
      ∀ b, applyBreakerOp op s = some b →
        (b.phase = .opened ∨ b.phase = .halfOpen) → 10 ≤ b.failures := by
    intro op s hs b hb hph
    cases op with
    | allow now =>
      rcases s with _ | b0
      · simp [applyBreakerOp, shouldAllowRequest] at hb
      · simp only [applyBreakerOp] at hb
        rcases shouldAllow_snd_cases now b0 with h | ⟨h, hph0⟩
        · rw [h] at hb
          injection hb with hb2
          subst hb2
          exact hs b0 rfl hph
        · rw [h] at hb
          injection hb with hb2
          subst hb2
          exact hs b0 rfl (Or.inl hph0)
    | success =>
      rcases s with _ | b0
      · simp [applyBreakerOp, recordSuccess] at hb
      · simp only [applyBreakerOp, recordSuccess] at hb
        cases hb
        rcases hph with h | h <;> simp at h
    | failure now =>
      simp only [applyBreakerOp] at hb
      rcases recordFailure_cases now s b hb with ⟨_, h10⟩ | ⟨hlt, hcarry, hcount⟩
      · exact h10
      · rcases s with _ | b0
        · simp at hcarry
          rw [hcarry] at hph
          rcases hph with h | h <;> simp at h
        · simp only [Option.getD] at hcarry hcount
          rw [hcarry] at hph
          have := hs b0 rfl hph
          omega
  have main : ∀ (l : List BreakerOp) (s : Option CircuitBreakerState),
      (∀ b, s = some b → (b.phase = .opened ∨ b.phase = .halfOpen) →
        10 ≤ b.failures) →
      ∀ b, l.foldl (fun s op => applyBreakerOp op s) s = some b →
        (b.phase = .opened ∨ b.phase = .halfOpen) → 10 ≤ b.failures := by
    intro l
    induction l with
    | nil =>
      intro s hs b hb hph
      exact hs b (by simpa using hb) hph
    | cons op t ih =>
      intro s hs b hb hph
      exact ih (applyBreakerOp op s) (step op s hs) b (by simpa using hb) hph
  intro b hb hph
  exact main ops none (fun b h => by cases h) b (by simpa [runBreakerOps] using hb) hph

/-- C3: the per-origin circuit breaker is a state machine over
CLOSED/OPEN/HALF_OPEN: `recordFailure` moves CLOSED to OPEN exactly when
the consecutive-failure count reaches the threshold of 10;
`shouldAllowRequest` allows in CLOSED and HALF_OPEN, and in OPEN allows
(flipping the state to HALF_OPEN) exactly when `now - lastFailureTime`
exceeds the 30000 ms cool-down, denying otherwise; `recordSuccess` resets
the failure count and forces CLOSED; and a `recordFailure` in a reachable
HALF_OPEN state returns the breaker to OPEN. -/
theorem circuitBreaker_state_machine (now : Int) (b : CircuitBreakerState) :
    (b.phase = .closed →
      recordFailure now (some b) =
        some ⟨b.failures + 1, now,
          if b.failures + 1 ≥ 10 then .opened else .closed⟩) ∧
    (b.phase = .closed ∨ b.phase = .halfOpen →
      (shouldAllowRequest now (some b)).1 = true) ∧
    (b.phase = .opened →
      shouldAllowRequest now (some b) =
        if now - b.lastFailureTime > breakerTimeout then
          (true, some ⟨b.failures, b.lastFailureTime, .halfOpen⟩)
        else
          (false, some b)) ∧
    (recordSuccess (some b) =
      some ⟨0, b.lastFailureTime, .closed⟩) ∧
    (∀ ops b2, runBreakerOps ops = some b2 → b2.phase = .halfOpen →
      ∃ b3, recordFailure now (some b2) = some b3 ∧ b3.phase = .opened) := by
  obtain ⟨f, t, ph⟩ := b
  refine ⟨?_, ?_, ?_, rfl, ?_⟩
  · intro h
    simp only [recordFailure, Option.getD]
    by_cases hc : f + 1 ≥ 10
    · rw [if_pos hc]
      simp [hc]
    · rw [if_neg hc]
      simp only at h
      rw [h]
      simp [hc]
  · rintro (h | h) <;> (simp only at h; rw [h]) <;> simp [shouldAllowRequest]
  · intro h
    simp only at h
    rw [h]
    rfl
  · intro ops b2 hrun hph
    have hge := breaker_failures_ge_ten ops b2 hrun (Or.inr hph)
    refine ⟨⟨b2.failures + 1, now, .opened⟩, ?_, rfl⟩
    simp only [recordFailure, Option.getD]
    rw [if_pos (by omega)]

theorem circuitBreaker_witness :
    recordFailure 100 (some ⟨9, 0, .closed⟩) = some ⟨10, 100, .opened⟩ ∧
    (shouldAllowRequest 100 (some ⟨10, 50, .halfOpen⟩)).1 = true ∧
    shouldAllowRequest 40000 (some ⟨10, 0, .opened⟩) =
      (true, some ⟨10, 0, .halfOpen⟩) ∧
    shouldAllowRequest 20000 (some ⟨10, 0, .opened⟩) =
      (false, some ⟨10, 0, .opened⟩) ∧
    recordSuccess (some ⟨10, 50, .opened⟩) = some ⟨0, 50, .closed⟩ ∧
    (∃ b3, recordFailure 99 (some ⟨10, 0, .halfOpen⟩) = some b3 ∧
      b3.phase = .opened) := by
  refine ⟨?_, ?_, ?_, ?_, ?_, ?_⟩
  · exact ((circuitBreaker_state_machine 100 ⟨9, 0, .closed⟩).1 rfl).trans
      (by decide)
  · exact (circuitBreaker_state_machine 100 ⟨10, 50, .halfOpen⟩).2.1 (Or.inr rfl)
  · exact ((circuitBreaker_state_machine 40000 ⟨10, 0, .opened⟩).2.2.1 rfl).trans
      (by decide)
  · exact ((circuitBreaker_state_machine 20000 ⟨10, 0, .opened⟩).2.2.1 rfl).trans
      (by decide)
  · exact (circuitBreaker_state_machine 0 ⟨10, 50, .opened⟩).2.2.2.1
  · exact (circuitBreaker_state_machine 99 ⟨10, 0, .halfOpen⟩).2.2.2.2
      (List.replicate 10 (.failure 0) ++ [.allow 40000]) ⟨10, 0, .halfOpen⟩
      (by decide) rfl

/-- C6 counterexample: a retried DELETE request whose original config
carried a body is re-issued through `client.delete(retryUrl, headers)`,
which drops the body — so the re-issue is not verbatim in its body
component.  (The headers type is `Unit`, the body type `Nat`.) -/
theorem retryReissue_delete_body_counterexample :
    (let cfg : RequestConfig Unit Nat := ⟨.DELETE, none, some 7⟩
     (retryReissue "u?q" (some cfg)).method = cfg.method ∧
       (retryReissue "u?q" (some cfg)).headers = cfg.headers ∧
       (retryReissue "u?q" (some cfg)).body ≠ cfg.body) := by
  refine ⟨rfl, rfl, ?_⟩
  decide

/-- C6 (amended): `handleRetry` re-issues the retried request with the
original method and headers verbatim for all five verbs — in particular a
POST/PUT/PATCH/DELETE retry is never downgraded to GET — and with the
original body verbatim for POST/PUT/PATCH; GET and DELETE retries are
re-issued without a body (the `client.get`/`client.delete` wrappers take
none). -/
theorem retryReissue_amended {η β : Type} (cfg : RequestConfig η β)
    (u : String) :
    (retryReissue u (some cfg)).method = cfg.method ∧
    (retryReissue u (some cfg)).headers = cfg.headers ∧
    (retryReissue u (some cfg)).url = u ∧
    ((cfg.method = .POST ∨ cfg.method = .PUT ∨ cfg.method = .PATCH) →
      (retryReissue u (some cfg)).body = cfg.body) ∧
    ((cfg.method = .GET ∨ cfg.method = .DELETE) →
      (retryReissue u (some cfg)).body = none) := by
  obtain ⟨m, h, b⟩ := cfg
  cases m <;>
    exact ⟨rfl, rfl, rfl, fun hm => by first | rfl | (rcases hm with h | h | h <;> cases h),
      fun hm => by first | rfl | (rcases hm with h | h <;> cases h)⟩

theorem retryReissue_amended_witness :
    (retryReissue "u" (some (⟨.POST, some 3, some 9⟩ : RequestConfig Nat Nat))).method
        = HttpMethod.POST ∧
      (retryReissue "u" (some (⟨.POST, some 3, some 9⟩ : RequestConfig Nat Nat))).body
        = some 9 := by
  have h := retryReissue_amended (⟨.POST, some 3, some 9⟩ : RequestConfig Nat Nat) "u"
  exact ⟨h.1, h.2.2.2.1 (Or.inl rfl)⟩

/-- C9: when a request carries no explicit `Content-Type` header and its
method carries a body (POST/PUT/PATCH with a non-null body), the pipeline
auto-detects the content type from the body's runtime shape: a
parseable-as-JSON string gives `application/json`, an HTML-looking string
gives `text/html`, an XML-looking string gives `application/xml`, any
other string gives `text/plain`, and plain objects/arrays/numbers/booleans
are serialized to JSON with content type `application/json`. -/
theorem contentType_autodetect (jsonParse : String → JsonParseOutcome)
    (m : HttpMethod) (hm : m = .POST ∨ m = .PUT ∨ m = .PATCH) :
    (∀ s, jsonParse s ≠ .fails →
      (pipelineBodyPrep jsonParse m none (some (.str s))).1 =
        some "application/json") ∧
    (∀ s, jsonParse s = .fails →
      jsStartsWith (jsTrim s) "<" = true → jsIncludes s "</" = true →
      (pipelineBodyPrep jsonParse m none (some (.str s))).1 =
        some "text/html") ∧
    (∀ s, jsonParse s = .fails →
      ¬(jsStartsWith (jsTrim s) "<" = true ∧ jsIncludes s "</" = true) →
      jsStartsWith (jsTrim s) "<" = true →
      (pipelineBodyPrep jsonParse m none (some (.str s))).1 =
        some "application/xml") ∧
    (∀ s, jsonParse s = .fails →
      jsStartsWith (jsTrim s) "<" = false → jsStartsWith (jsTrim s) "<?xml" = false →
      (pipelineBodyPrep jsonParse m none (some (.str s))).1 =
        some "text/plain") ∧
    (∀ b, b = JsBody.object ∨ b = .array ∨ b = .number ∨ b = .boolean →
      pipelineBodyPrep jsonParse m none (some b) =
        (some "application/json", some (.jsonStringified b))) := by
  have hshould : ∀ b, shouldSetContentType m (some b) = true := by
    intro b
    rcases hm with h | h | h <;> simp [shouldSetContentType, h]
  refine ⟨?_, ?_, ?_, ?_, ?_⟩
  · intro s hs
    simp only [pipelineBodyPrep, hshould, if_true]
    rcases hj : jsonParse s with _ | v | _
    · exact absurd hj hs
    · simp [detectContentType, hj]
    · simp [detectContentType, hj]
  · intro s hs h1 h2
    simp only [pipelineBodyPrep, hshould, if_true]
    simp [detectContentType, hs, h1, h2]
  · intro s hs hnot h1
    simp only [pipelineBodyPrep, hshould, if_true]
    have h2 : jsIncludes s "</" = false := by
      rcases hinc : jsIncludes s "</" with _ | _
      · rfl
      · exact absurd ⟨h1, hinc⟩ hnot
    simp [detectContentType, hs, h1, h2]
  · intro s hs h1 h2
    simp only [pipelineBodyPrep, hshould, if_true]
    simp [detectContentType, hs, h1, h2]
  · rintro b (rfl | rfl | rfl | rfl) <;>
      simp [pipelineBodyPrep, hshould, detectContentType]

theorem contentType_autodetect_witness :
    (let jp : String → JsonParseOutcome :=
      fun s => if s = "42" then .otherVal else .fails
     (pipelineBodyPrep jp .POST none (some (.str "42"))).1 =
        some "application/json" ∧
      (pipelineBodyPrep jp .POST none (some (.str "<p>x</p>"))).1 =
        some "text/html" ∧
      (pipelineBodyPrep jp .POST none (some (.str "<?xml version=1?>"))).1 =
        some "application/xml" ∧
      (pipelineBodyPrep jp .POST none (some (.str "hello"))).1 =
        some "text/plain" ∧
      pipelineBodyPrep jp .POST none (some .object) =
        (some "application/json", some (.jsonStringified .object))) := by
  intro jp
  have h := contentType_autodetect jp .POST (Or.inl rfl)
  refine ⟨?_, ?_, ?_, ?_, ?_⟩
  · exact h.1 "42" (by decide)
  · exact h.2.1 "<p>x</p>" (by decide) (by decide) (by decide)
  · exact h.2.2.1 "<?xml version=1?>" (by decide) (by decide) (by decide)
  · exact h.2.2.2.1 "hello" (by decide) (by decide) (by decide)
  · exact h.2.2.2.2 .object (Or.inl rfl)

/-- The eviction loop leaves a list strictly shorter than `maxSize`
(provided `maxSize` is at least 1). -/
theorem evictOldest_length_lt (m : Nat) (hm : 1 ≤ m) :
    ∀ l : CacheMap, (evictOldest m l).length < m := by
  intro l
  induction l with
  | nil => simpa using hm
  | cons e rest ih =>
    simp only [evictOldest]
    by_cases hc : (e :: rest).length ≥ m
    · rw [if_pos hc]
      exact ih
    · rw [if_neg hc]
      omega

/-- The eviction loop does not touch a list already below capacity. -/
theorem evictOldest_of_lt (m : Nat) (l : CacheMap) (h : l.length < m) :
    evictOldest m l = l := by
  cases l with
  | nil => rfl
  | cons e rest =>
    simp only [evictOldest]
    rw [if_neg (by omega)]

/-- Inserting a fresh key into a cache exactly at capacity evicts
precisely the head — the least recently used entry — and appends the new
entry at the most-recently-used end. -/
theorem memorySet_at_capacity (m : Nat) (c : CacheMap) (k : String)
    (v : CachedResponse) (hk : cacheContains k c = false)
    (hlen : c.length = m) :
    memorySet m c k v = c.drop 1 ++ [(k, v)] := by
  unfold memorySet
  rw [hk]
  simp only [Bool.false_eq_true, if_false]
  cases c with
  | nil =>
    simp only [List.length_nil] at hlen
    subst hlen
    rfl
  | cons e rest =>
    simp only [List.length_cons] at hlen
    simp only [evictOldest]
    rw [if_pos (by simp; omega)]
    rw [evictOldest_of_lt m rest (by omega)]
    rfl

/-- A cache whose most recently used key is `k` contains `k`. -/
theorem contains_of_lastKey (k : String) :
    ∀ c : CacheMap, cacheLastKey c = some k → cacheContains k c = true := by
  intro c
  induction c with
  | nil => intro h; simp [cacheLastKey] at h
  | cons e rest ih =>
    intro h
    cases rest with
    | nil =>
      simp only [cacheLastKey, List.map_cons, List.map_nil,
        List.getLast?_singleton, Option.some.injEq] at h
      simp [cacheContains, h]
    | cons f t =>
      have h2 : cacheLastKey (f :: t) = some k := by
        simpa [cacheLastKey] using h
      have hc := ih h2
      simp only [cacheContains, List.any_cons, Bool.or_eq_true] at hc ⊢
      exact Or.inr hc

/-- Dropping the head preserves the most recently used key of a cache of
at least two entries. -/
theorem lastKey_drop_one (k : String) (c : CacheMap) (h2 : 2 ≤ c.length)
    (hlast : cacheLastKey c = some k) :
    cacheLastKey (c.drop 1) = some k := by
  cases c with
  | nil => simp at h2
  | cons e rest =>
    cases rest with
    | nil => simp at h2
    | cons f t => simpa [cacheLastKey] using hlast

/-- The most recently used entry survives the eviction caused by
inserting one fresh key at capacity. -/
theorem lastKey_survives_set (m : Nat) (c : CacheMap) (k k2 : String)
    (v2 : CachedResponse) (hlast : cacheLastKey c = some k)
    (hlen : c.length = m) (hm : 2 ≤ m)
    (hk2 : cacheContains k2 c = false) :
    cacheContains k (memorySet m c k2 v2) = true := by
  rw [memorySet_at_capacity m c k2 v2 hk2 hlen]
  have hd : cacheLastKey (c.drop 1) = some k :=
    lastKey_drop_one k c (by omega) hlast
  have hcont := contains_of_lastKey k (c.drop 1) hd
  unfold cacheContains at hcont ⊢
  rw [List.any_append, hcont, Bool.true_or]

/-- C4: for a `MemoryCacheStorage` at capacity `maxSize`, `set` with a
fresh key evicts exactly the least-recently-used (head) entry and no
other; a `get` of a present, valid entry returns it and promotes it to
most recently used, so that it survives the next at-capacity insertion of
a fresh key. -/
theorem memoryCache_lru (m : Nat) (c : CacheMap) (k k2 : String)
    (v v2 : CachedResponse) :
    (cacheContains k c = false → c.length = m →
      memorySet m c k v = c.drop 1 ++ [(k, v)]) ∧
    (∀ v0, cacheLookup k c = some v0 → isValidEntry v0 = true →
      (memoryGet c k).1 = some v0 ∧
      cacheLastKey ((memoryGet c k).2) = some k) ∧
    (∀ v0, cacheLookup k c = some v0 → isValidEntry v0 = true →
      ((memoryGet c k).2).length = m → 2 ≤ m →
      cacheContains k2 ((memoryGet c k).2) = false →
      cacheContains k (memorySet m ((memoryGet c k).2) k2 v2) = true) := by
  have promo : ∀ v0, cacheLookup k c = some v0 → isValidEntry v0 = true →
      (memoryGet c k).1 = some v0 ∧
      cacheLastKey ((memoryGet c k).2) = some k := by
    intro v0 hl hv
    unfold memoryGet
    rw [hl]
    dsimp only
    rw [if_neg (by simp [hv])]
    by_cases hb : c.length > 1 ∧ cacheLastKey c ≠ some k
    · rw [if_pos hb]
      refine ⟨rfl, ?_⟩
      show cacheLastKey (cacheErase k c ++ [(k, v0)]) = some k
      unfold cacheLastKey
      rw [List.map_append]
      simp
    · rw [if_neg hb]
      refine ⟨rfl, ?_⟩
      push_neg at hb
      by_cases hlen : c.length > 1
      · exact hb hlen
      · cases c with
        | nil => simp [cacheLookup] at hl
        | cons e rest =>
          cases rest with
          | nil =>
            have he : e.1 = k := by
              by_cases he : e.1 = k
              · exact he
              · simp [cacheLookup, List.find?, he] at hl
            simp [cacheLastKey, he]
          | cons f t => simp at hlen
  refine ⟨fun hk hlen => memorySet_at_capacity m c k v hk hlen, promo, ?_⟩
  intro v0 hl hv hlen hm hk2
  exact lastKey_survives_set m ((memoryGet c k).2) k k2 v2
    ((promo v0 hl hv).2) hlen hm hk2

theorem memoryCache_lru_witness :
    (let V : CachedResponse := ⟨true, true, 5, 1⟩
     let c : CacheMap := [("a", V), ("b", V)]
     memorySet 2 c "c" V = c.drop 1 ++ [("c", V)] ∧
       cacheLastKey ((memoryGet c "a").2) = some "a" ∧
       cacheContains "a" (memorySet 2 ((memoryGet c "a").2) "c" V) = true) := by
  intro V c
  refine ⟨(memoryCache_lru 2 c "c" "x" V V).1 (by decide) (by decide), ?_, ?_⟩
  · exact ((memoryCache_lru 2 c "a" "c" V V).2.1 V (by decide) (by decide)).2
  · exact (memoryCache_lru 2 c "a" "c" V V).2.2 V (by decide) (by decide)
      (by decide) (by decide) (by decide)

/-- Erasing a key that `cacheLookup` finds strictly shrinks the cache. -/
theorem cacheErase_length_lt (k : String) (c : CacheMap) (v : CachedResponse)
    (h : cacheLookup k c = some v) :
    (cacheErase k c).length < c.length := by
  unfold cacheErase
  rw [List.length_filter_lt_length_iff_exists]
  unfold cacheLookup at h
  obtain ⟨e, hfind, _⟩ := Option.map_eq_some'.mp h
  have hmem := List.mem_of_find?_eq_some hfind
  have hpred := List.find?_some hfind
  refine ⟨e, hmem, ?_⟩
  simp only [decide_eq_true_eq] at hpred
  simp [hpred]

/-- One cache operation keeps the entry count within `maxSize`. -/
theorem cacheOp_length_le (m : Nat) (hm : 1 ≤ m) (c : CacheMap)
    (op : CacheOp) (hc : c.length ≤ m) :
    (applyCacheOp m c op).length ≤ m := by
  cases op with
  | get k =>
    simp only [applyCacheOp]
    unfold memoryGet
    cases hl : cacheLookup k c with
    | none => simpa using hc
    | some v =>
      dsimp only
      by_cases hv : isValidEntry v = true
      · rw [if_neg (by simp [hv])]
        by_cases hb : c.length > 1 ∧ cacheLastKey c ≠ some k
        · rw [if_pos hb]
          have hlt := cacheErase_length_lt k c v hl
          simp only [List.length_append, List.length_cons, List.length_nil]
          omega
        · rw [if_neg hb]
          simpa using hc
      · rw [if_pos (by simp [hv])]
        have hle := List.length_filter_le (fun e => e.1 ≠ k) c
        simp only [cacheErase]
        omega
  | set k v =>
    simp only [applyCacheOp]
    unfold memorySet
    have hev := evictOldest_length_lt m hm
      (if cacheContains k c = true then cacheErase k c else c)
    simp only [List.length_append, List.length_cons, List.length_nil]
    omega
  | del k =>
    simp only [applyCacheOp]
    unfold memoryDelete cacheErase
    exact le_trans (List.length_filter_le _ _) hc
  | clear =>
    simp only [applyCacheOp, memoryClear, List.length_nil]
    omega

/-- C10: for every `MemoryCacheStorage` with `maxSize >= 1`, the number of
stored entries never exceeds `maxSize` after any sequence of `get`, `set`,
`delete` and `clear` operations starting from a fresh (empty) storage. -/
theorem memoryCache_size_bounded (m : Nat) (hm : 1 ≤ m)
    (ops : List CacheOp) : (runCacheOps m ops).length ≤ m := by
  have main : ∀ (l : List CacheOp) (c : CacheMap), c.length ≤ m →
      (l.foldl (applyCacheOp m) c).length ≤ m := by
    intro l
    induction l with
    | nil => intro c hc; simpa using hc
    | cons op t ih =>
      intro c hc
      exact ih _ (cacheOp_length_le m hm c op hc)
  simpa [runCacheOps] using main ops [] (by simp)

theorem memoryCache_size_bounded_witness :
    (runCacheOps 1
      [.set "a" ⟨true, true, 0, 1⟩, .set "b" ⟨true, true, 0, 2⟩,
        .get "b", .set "c" ⟨true, true, 0, 3⟩]).length ≤ 1 :=
  memoryCache_size_bounded 1 (by decide) _

/-- Totality of the comparator model. -/
theorem lexLE_total : ∀ a b : List Char, lexLE a b = true ∨ lexLE b a = true := by
  intro a
  induction a with
  | nil => intro b; left; rfl
  | cons x s ih =>
    intro b
    cases b with
    | nil => right; rfl
    | cons y t =>
      by_cases hxy : x = y
      · subst hxy
        rcases ih t with h | h
        · left; simpa [lexLE] using h
        · right; simpa [lexLE] using h
      · rcases lt_trichotomy x y with h | h | h
        · left; simp [lexLE, hxy, h]
        · exact absurd h hxy
        · right
          simp [lexLE, Ne.symm hxy, h]

/-- Transitivity of the comparator model. -/
theorem lexLE_trans : ∀ a b c : List Char,
    lexLE a b = true → lexLE b c = true → lexLE a c = true := by
  intro a
  induction a with
  | nil => intro b c _ _; rfl
  | cons x s ih =>
    intro b c hab hbc
    cases b with
    | nil => simp [lexLE] at hab
    | cons y t =>
      cases c with
      | nil => simp [lexLE] at hbc
      | cons z u =>
        by_cases hxy : x = y <;> by_cases hyz : y = z
        · subst hxy; subst hyz
          simp only [lexLE, if_pos rfl] at hab hbc ⊢
          exact ih t u hab hbc
        · subst hxy
          simp only [lexLE, if_pos rfl] at hab
          simpa [lexLE, hyz] using hbc
        · subst hyz
          simp only [lexLE, if_pos rfl] at hbc
          simpa [lexLE, hxy] using hab
        · simp only [lexLE, if_neg hxy, decide_eq_true_eq] at hab
          simp only [lexLE, if_neg hyz, decide_eq_true_eq] at hbc
          have hxz : x < z := lt_trans hab hbc
          simp [lexLE, ne_of_lt hxz, hxz]

/-- Antisymmetry of the comparator model. -/
theorem lexLE_antisymm : ∀ a b : List Char,
    lexLE a b = true → lexLE b a = true → a = b := by
  intro a
  induction a with
  | nil =>
    intro b _ hba
    cases b with
    | nil => rfl
    | cons y t => simp [lexLE] at hba
  | cons x s ih =>
    intro b hab hba
    cases b with
    | nil => simp [lexLE] at hab
    | cons y t =>
      by_cases hxy : x = y
      · subst hxy
        simp only [lexLE, if_pos rfl] at hab hba
        rw [ih t hab hba]
      · simp only [lexLE, if_neg hxy, decide_eq_true_eq] at hab
        simp only [lexLE, if_neg (Ne.symm hxy), decide_eq_true_eq] at hba
        exact absurd hba (lt_asymm hab)

/-- Mutually `keyLE`-related parameters have equal keys. -/
theorem keyLE_antisymm_fst {p q : String × String}
    (hpq : keyLE p q) (hqp : keyLE q p) : p.1 = q.1 := by
  unfold keyLE localeCompareLE at hpq hqp
  exact congrArg String.mk (lexLE_antisymm _ _ hpq hqp)

/-- Two sorted permutations of one another with pairwise-distinct keys are
equal: sorting by key alone is canonical as soon as no key repeats. -/
theorem sorted_perm_nodup_keys_eq (l1 l2 : List (String × String))
    (hp : l1.Perm l2) (hs1 : l1.Sorted keyLE) (hs2 : l2.Sorted keyLE)
    (hnd : (l1.map Prod.fst).Nodup) : l1 = l2 := by
  have hnd2 : (l2.map Prod.fst).Nodup := ((hp.map Prod.fst).nodup_iff).mp hnd
  have hne1 : l1.Pairwise (fun p q : String × String => p.1 ≠ q.1) :=
    (List.pairwise_map).mp hnd
  have hne2 : l2.Pairwise (fun p q : String × String => p.1 ≠ q.1) :=
    (List.pairwise_map).mp hnd2
  have hstrict1 : l1.Pairwise (fun p q : String × String => keyLE p q ∧ p.1 ≠ q.1) :=
    hs1.and hne1
  have hstrict2 : l2.Pairwise (fun p q : String × String => keyLE p q ∧ p.1 ≠ q.1) :=
    hs2.and hne2
  haveI : IsAntisymm (String × String)
      (fun p q : String × String => keyLE p q ∧ p.1 ≠ q.1) :=
    ⟨fun p q hpq hqp => absurd (keyLE_antisymm_fst hpq.1 hqp.1) hpq.2⟩
  exact List.eq_of_perm_of_sorted hp hstrict1 hstrict2

/-- C5 counterexample: two URLs whose query parameters are equal as a set
(`a=1` and `a=2`, in the two orders) produce DIFFERENT cache keys, because
the sort compares keys only and JS sort is stable, so entries sharing the
key `a` keep their original relative order. -/
theorem generateKey_set_equal_counterexample :
    (parseQuery "a=1&a=2").Perm (parseQuery "a=2&a=1") ∧
      generateKey true (fun _ => none) "GET" "p?a=1&a=2" none ≠
        generateKey true (fun _ => none) "GET" "p?a=2&a=1" none := by
  constructor
  · decide
  · decide

/-- Reduction of `generateKey` on a relative URL with a non-empty query
string, with query-parameter inclusion enabled. -/
theorem generateKey_rel_query (up : String → Option (String × String))
    (method u p q : String) (body : Option String)
    (h : jsSplitChar u '?' = [p, q]) (hh : jsStartsWith u "http" = false)
    (hq : q ≠ "") :
    generateKey true up method u body =
      (let m := jsToUpper method
       let key := m ++ ":" ++ p ++ "?" ++ renderParams (sortParams (parseQuery q))
       match body with
       | some s => if m ≠ "GET" then key ++ ":" ++ s else key
       | none => key) := by
  unfold generateKey
  simp only [hh, Bool.false_eq_true, if_false, h, if_true, eq_self_iff_true,
    List.headD_cons]
  have hk : (match ([p, q].get? 1 : Option String) with
      | none => jsToUpper method ++ ":" ++ p
      | some "" => jsToUpper method ++ ":" ++ p
      | some qs =>
          jsToUpper method ++ ":" ++ p ++ "?" ++
            renderParams (sortParams (parseQuery qs))) =
      jsToUpper method ++ ":" ++ p ++ "?" ++
        renderParams (sortParams (parseQuery q)) := by
    have hg : ([p, q].get? 1 : Option String) = some q := rfl
    rw [hg]
    split
    · simp_all
    · simp_all
    · rename_i qs heq
      rw [Option.some.inj heq]
  simp only [hk]

/-- C5 (amended): when query-parameter inclusion is enabled and the query
parameters' KEYS are pairwise distinct, two relative URLs with the same
path whose parameter lists are permutations of one another yield the same
cache key (parameters are sorted by key); determinism itself is immediate,
the generator being a pure function of method, URL and serialized body. -/
theorem generateKey_sorted_params (up : String → Option (String × String))
    (method u1 u2 p q1 q2 : String) (body : Option String)
    (h1 : jsSplitChar u1 '?' = [p, q1]) (h2 : jsSplitChar u2 '?' = [p, q2])
    (hh1 : jsStartsWith u1 "http" = false)
    (hh2 : jsStartsWith u2 "http" = false)
    (hq1 : q1 ≠ "") (hq2 : q2 ≠ "")
    (hperm : (parseQuery q1).Perm (parseQuery q2))
    (hnd : ((parseQuery q1).map Prod.fst).Nodup) :
    generateKey true up method u1 body = generateKey true up method u2 body := by
  haveI htot : IsTotal (String × String) keyLE :=
    ⟨fun p q => by
      unfold keyLE localeCompareLE
      exact lexLE_total p.1.data q.1.data⟩
  haveI htrans : IsTrans (String × String) keyLE :=
    ⟨fun p q r hpq hqr => by
      unfold keyLE localeCompareLE at hpq hqr ⊢
      exact lexLE_trans _ _ _ hpq hqr⟩
  have hsortedeq : sortParams (parseQuery q1) = sortParams (parseQuery q2) := by
    apply sorted_perm_nodup_keys_eq
    · exact ((List.perm_insertionSort keyLE (parseQuery q1)).trans hperm).trans
        (List.perm_insertionSort keyLE (parseQuery q2)).symm
    · exact List.sorted_insertionSort keyLE (parseQuery q1)
    · exact List.sorted_insertionSort keyLE (parseQuery q2)
    · exact (((List.perm_insertionSort keyLE (parseQuery q1)).map
        Prod.fst).nodup_iff).mpr hnd
  rw [generateKey_rel_query up method u1 p q1 body h1 hh1 hq1,
    generateKey_rel_query up method u2 p q2 body h2 hh2 hq2, hsortedeq]

theorem generateKey_sorted_params_witness :
    generateKey true (fun _ => none) "GET" "items?b=2&a=1" none =
      generateKey true (fun _ => none) "GET" "items?a=1&b=2" none := by
  apply generateKey_sorted_params (fun _ => none) "GET" "items?b=2&a=1"
    "items?a=1&b=2" "items" "b=2&a=1" "a=1&b=2" none
  · decide
  · decide
  · decide
  · decide
  · decide
  · decide
  · decide
  · decide

theorem verbCall_eq_request {η β : Type} (env : HttpEnv η β)
    (baseUrl path : String) (m : HttpMethod) (headers : Option η)
    (body : Option β) :
    verbCall env baseUrl path m headers body =
      request env baseUrl path (verbConfig m headers body) := by
  cases m <;> rfl

/-- C2: every verb call resolves to a discriminated outcome — `.success`
exactly when the transport returns a 2xx response, `.failure` with the
status for any non-2xx response, and `.failure` without a status when the
transport rejects; the promise never rejects for HTTP-level failures (the
only `Except.error` exit is URL normalization, excluded by `hurl`). -/
theorem verbCall_discriminated {η β : Type} (env : HttpEnv η β)
    (baseUrl path : String) (m : HttpMethod) (headers : Option η)
    (body : Option β) (u : String)
    (hurl : normalizeUrl env.urlValid baseUrl path = .ok u) :
    (∀ status ct bt,
      env.transport (runHandlers env.before (verbConfig m headers body)) =
        .response status ct bt →
      ((200 ≤ status ∧ status ≤ 299) →
        ∃ d, verbCall env baseUrl path m headers body = .ok (.success d)) ∧
      (¬(200 ≤ status ∧ status ≤ 299) →
        ∃ e, verbCall env baseUrl path m headers body =
          .ok (.failure (some status) e))) ∧
    (∀ msg,
      env.transport (runHandlers env.before (verbConfig m headers body)) =
        .threw msg →
      ∃ e, verbCall env baseUrl path m headers body = .ok (.failure none e)) := by
  rw [verbCall_eq_request]
  unfold request
  rw [hurl]
  dsimp only
  constructor
  · intro status ct bt htr
    rw [htr]
    dsimp only
    constructor
    · intro hok
      rw [if_pos hok]
      exact ⟨_, rfl⟩
    · intro hnot
      rw [if_neg hnot]
      exact ⟨_, rfl⟩
  · intro msg htr
    rw [htr]
    dsimp only
    exact ⟨_, rfl⟩

theorem verbCall_discriminated_witness :
    (let env : HttpEnv Unit Unit :=
      { urlValid := fun _ => true
        jsonParse := fun _ => .fails
        before := []
        after := []
        onError := []
        transport := fun _ => .response 404 none "not found" }
     ∃ e, verbCall env "api" "x" .GET none none =
        .ok (.failure (some 404) e)) := by
  intro env
  have h := verbCall_discriminated env "api" "x" .GET none none "api/x" rfl
  exact (h.1 404 none "not found" rfl).2 (by omega)

theorem withAuthBody_refreshCalls_le_one {T : Type} (env : AuthEnv T) :
    (withAuthBody env).refreshCalls ≤ 1 := by
  obtain ⟨sk, atk, rtk, ae, re, rr, rq⟩ := env
  unfold withAuthBody proactiveRefreshFlow
  dsimp only
  rcases atk with _ | a <;> rcases rtk with _ | r <;> rcases ae <;>
    rcases re <;> rcases sk with _ | k <;>
    rcases hq0 : rq 0 with v | _ | m <;>
    rcases hr0 : rr 0 with ⟨a2, r2⟩ | _ <;>
    rcases hq1 : rq 1 with v1 | _ | m1 <;>
    simp [hq0, hr0, hq1]

/-- No execution of `withAuth` ever calls the refresh endpoint twice. -/
theorem withAuth_refreshCalls_le_one {T : Type} (env : AuthEnv T) :
    (withAuth env).refreshCalls ≤ 1 := by
  unfold withAuth
  rcases env.secretKey with _ | k
  · exact withAuthBody_refreshCalls_le_one env
  · dsimp only
    split
    · simp
    · exact withAuthBody_refreshCalls_le_one env

/-- C1 counterexample: with a stored, unexpired refresh token but no
stored access token, `withAuth` refreshes up front, issues the request
once, and when that request rejects with a 403-class error it redirects
to login and throws WITHOUT re-issuing the request — no refresh-and-retry
cycle answers the 403, contradicting the claim as stated. -/
theorem withAuth_403_no_retry_counterexample :
    (let env : AuthEnv Nat :=
      { secretKey := some "0123456789abcdef0123456789abcdef"
        accessToken := none
        refreshToken := some "R"
        accessExpired := false
        refreshExpired := false
        refreshResults := fun _ => .ok "A2" "R"
        requestResults := fun _ => .threw403 }
     env.refreshToken = some "R" ∧ env.refreshExpired = false ∧
       env.requestResults 0 = .threw403 ∧
       (withAuth env).requestCalls = 1 ∧
       (withAuth env).refreshCalls = 1 ∧
       (withAuth env).redirectedToLogin = true ∧
       (withAuth env).outcome = .error "Token refresh failed") := by
  intro env
  exact ⟨rfl, rfl, rfl, rfl, rfl, rfl, rfl⟩

/-- C1 (amended): on the normal path — a present, unexpired access token,
a stored unexpired refresh token and a configured secret key — a 403-class
rejection triggers exactly one refresh-and-retry cycle (one refresh call,
one re-issue), and a second 403 makes `withAuth` redirect to login
(clearing the stored tokens via `logout`) and throw; moreover NO execution
of `withAuth`, on any path, ever performs a second refresh.  (When the
access token was absent or expired, the single refresh happens before the
request instead, and a 403 then redirects to login without a retry.) -/
theorem withAuth_refresh_once {T : Type} (env : AuthEnv T)
    (k a r a2 r2 : String)
    (hsk : env.secretKey = some k) (hkl : 32 ≤ k.length)
    (hat : env.accessToken = some a) (hae : env.accessExpired = false)
    (hrt : env.refreshToken = some r) (hre : env.refreshExpired = false)
    (h0 : env.requestResults 0 = .threw403)
    (href : env.refreshResults 0 = .ok a2 r2)
    (h1 : env.requestResults 1 = .threw403) :
    (withAuth env).refreshCalls = 1 ∧
    (withAuth env).requestCalls = 2 ∧
    (withAuth env).redirectedToLogin = true ∧
    (withAuth env).outcome = .error "Token refresh failed after 403 error" ∧
    (∀ env2 : AuthEnv T, (withAuth env2).refreshCalls ≤ 1) := by
  have hfull : withAuth env =
      ⟨1, 2, true, .error "Token refresh failed after 403 error"⟩ := by
    unfold withAuth
    rw [hsk]
    dsimp only
    rw [if_neg (by omega)]
    unfold withAuthBody
    rw [hat, hrt]
    dsimp only
    rw [hae]
    simp only [Bool.false_eq_true, if_false]
    rw [h0]
    dsimp only
    rw [hsk]
    dsimp only
    rw [hre]
    simp only [Bool.false_eq_true, if_false]
    rw [href]
    dsimp only
    rw [h1]
  rw [hfull]
  exact ⟨rfl, rfl, rfl, rfl, fun env2 => withAuth_refreshCalls_le_one env2⟩

theorem withAuth_refresh_once_witness :
    (let env : AuthEnv Nat :=
      { secretKey := some "0123456789abcdef0123456789abcdef"
        accessToken := some "A"
        refreshToken := some "R"
        accessExpired := false
        refreshExpired := false
        refreshResults := fun _ => .ok "A2" "R"
        requestResults := fun _ => .threw403 }
     (withAuth env).refreshCalls = 1 ∧
       (withAuth env).requestCalls = 2 ∧
       (withAuth env).redirectedToLogin = true ∧
       (withAuth env).outcome =
         .error "Token refresh failed after 403 error") := by
  intro env
  have h := withAuth_refresh_once env "0123456789abcdef0123456789abcdef"
    "A" "R" "A2" "R" rfl (by decide) rfl rfl rfl rfl rfl rfl rfl
  exact ⟨h.1, h.2.1, h.2.2.1, h.2.2.2.1⟩

end Hyperwiz
